import Mathlib

/-!
Verification development for the request-execution core of a Twitter
automation tool: proxy pool management (`src/utils/proxy.ts`), the HTTP
client with retry logic and response classifiers (`src/utils/httpClient.ts`),
and CSRF-token acquisition (`auth.ts`).  The TypeScript code is shallowly
embedded: JavaScript `Map`s become association lists, `Date` timestamps
become `Int` milliseconds, object identity of `ProxyAgent` values becomes a
`Nat` allocation counter, and all nondeterminism (network outcomes,
`Math.random`) is supplied through explicit oracle parameters.
-/

/-- Substring test on character lists; models JavaScript
`String.prototype.includes`. -/
def hasSub (pat : List Char) : List Char → Bool
  | [] => pat.isEmpty
  | c :: rest => List.isPrefixOf pat (c :: rest) || hasSub pat rest

/-- Models `s.includes(pat)` for JavaScript strings. -/
def strContains (s pat : String) : Bool :=
  hasSub pat.data s.data

/-- Association-list lookup; models `Map.prototype.get` (first matching key;
our `mapSet` keeps keys unique, mirroring a JS `Map`). -/
def mapGet {α : Type} : List (String × α) → String → Option α
  | [], _ => none
  | e :: rest, k => if e.1 = k then some e.2 else mapGet rest k

/-- Association-list update; models `Map.prototype.set`, which overwrites an
existing key in place (preserving insertion order) or appends a new one. -/
def mapSet {α : Type} : List (String × α) → String → α → List (String × α)
  | [], k, v => [(k, v)]
  | e :: rest, k, v => if e.1 = k then (k, v) :: rest else e :: mapSet rest k v

theorem mapGet_mapSet {α : Type} (m : List (String × α)) (k k' : String) (v : α) :
    mapGet (mapSet m k v) k' = if k' = k then some v else mapGet m k' := by
  induction m with
  | nil =>
    by_cases h : k' = k
    · subst h; simp [mapSet, mapGet]
    · simp only [mapSet, mapGet]
      rw [if_neg (fun hh : k = k' => h hh.symm), if_neg h]
  | cons e rest ih =>
    simp only [mapSet]
    by_cases he : e.1 = k
    · rw [if_pos he]
      by_cases h : k' = k
      · simp [mapGet, h]
      · rw [if_neg h]
        simp only [mapGet]
        rw [if_neg (fun hh : k = k' => h hh.symm),
            if_neg (fun hh : e.1 = k' => h (he.symm.trans hh).symm)]
    · rw [if_neg he]
      simp only [mapGet]
      by_cases h2 : e.1 = k'
      · have hk : ¬ k' = k := fun hh => he (h2.trans hh)
        rw [if_pos h2, if_neg hk, if_pos h2]
      · rw [if_neg h2, ih, if_neg h2]

/-- Proxy configuration parsed from one line of `proxies.txt`
(`user:pass:host:port`). -/
structure ProxyConfig where
  user : String
  pass : String
  host : String
  port : String
deriving DecidableEq, Repr

/-- Per-proxy health record.  `agent` is the identity of the `ProxyAgent`
object (a fresh `Nat` per `new ProxyAgent(...)`); times are epoch
milliseconds. -/
structure ProxyHealth where
  agent : Nat
  failures : Nat
  lastFailure : Option Int := none
  lastSuccess : Option Int := none
  isHealthy : Bool
deriving DecidableEq, Repr

inductive RotationMode
  | sticky
  | random
  | roundRobin
deriving DecidableEq, Repr

/-- State of a `ProxyManager` instance.  `proxyMap` is the token → agent
cache for sticky mode, `proxyHealth` maps proxy URLs to health records,
`healthCheckInterval` is in seconds, and `nextAgentId` is the allocation
counter for fresh `ProxyAgent` objects. -/
structure PMState where
  proxyMap : List (String × Nat)
  proxies : List ProxyConfig
  proxyHealth : List (String × ProxyHealth)
  currentIndex : Nat
  rotationMode : RotationMode
  maxFailures : Nat
  healthCheckInterval : Int
  nextAgentId : Nat
deriving DecidableEq, Repr

namespace ProxyManager

/-- Models the `ProxyManager` constructor (defaults: sticky, 3 failures,
300 s cooldown). -/
def mkPM (rotationMode : RotationMode := .sticky) (maxFailures : Nat := 3)
    (healthCheckInterval : Int := 300) : PMState :=
  { proxyMap := [], proxies := [], proxyHealth := [], currentIndex := 0,
    rotationMode, maxFailures, healthCheckInterval, nextAgentId := 0 }

/-- Models `ProxyManager.getProxyUrl`. -/
def getProxyUrl (p : ProxyConfig) : String :=
  "http://" ++ p.user ++ ":" ++ p.pass ++ "@" ++ p.host ++ ":" ++ p.port

/-- One iteration of the filter callback in
`ProxyManager.getHealthyProxies`; mutates the shared health record when the
cooldown period has passed. -/
def healthStep (interval now : Int) (m : List (String × ProxyHealth))
    (p : ProxyConfig) : Bool × List (String × ProxyHealth) :=
  let url := getProxyUrl p
  match mapGet m url with
  | none => (true, m)
  | some h =>
    if h.isHealthy then (true, m)
    else
      match h.lastFailure with
      | some lf =>
        if now - lf < interval * 1000 then (false, m)
        else (true, mapSet m url ({ h with isHealthy := true, failures := 0 }))
      | none => (true, mapSet m url ({ h with isHealthy := true, failures := 0 }))

/-- The `proxies.filter(...)` loop of `ProxyManager.getHealthyProxies`,
threading the mutated health map. -/
def healthFilter (interval now : Int) :
    List ProxyConfig → List (String × ProxyHealth) →
    List ProxyConfig × List (String × ProxyHealth)
  | [], m => ([], m)
  | p :: rest, m =>
    let (keep, m') := healthStep interval now m p
    let (tail, m'') := healthFilter interval now rest m'
    (if keep then p :: tail else tail, m'')

/-- Models `ProxyManager.getHealthyProxies` (`now = new Date()` as a
parameter). -/
def getHealthyProxies (now : Int) (s : PMState) : List ProxyConfig × PMState :=
  let (l, m) := healthFilter s.healthCheckInterval now s.proxies s.proxyHealth
  (l, { s with proxyHealth := m })

/-- Models `ProxyManager.getOrCreateAgent`. -/
def getOrCreateAgent (now : Int) (p : ProxyConfig) (s : PMState) : Nat × PMState :=
  let url := getProxyUrl p
  let newRec : ProxyHealth :=
    { agent := s.nextAgentId, failures := 0, lastFailure := none,
      lastSuccess := some now, isHealthy := true }
  let fresh : Nat × PMState :=
    (s.nextAgentId,
     { s with proxyHealth := mapSet s.proxyHealth url newRec,
              nextAgentId := s.nextAgentId + 1 })
  match mapGet s.proxyHealth url with
  | some h => if h.isHealthy then (h.agent, s) else fresh
  | none => fresh

/-- Models `ProxyManager.markProxyFailed`. -/
def markProxyFailed (url : String) (now : Int) (s : PMState) : PMState :=
  match mapGet s.proxyHealth url with
  | none => s
  | some h =>
    let h₁ := { h with failures := h.failures + 1, lastFailure := some now }
    let h₂ := if s.maxFailures ≤ h₁.failures then { h₁ with isHealthy := false } else h₁
    { s with proxyHealth := mapSet s.proxyHealth url h₂ }

/-- Models `ProxyManager.markProxySuccess`. -/
def markProxySuccess (url : String) (now : Int) (s : PMState) : PMState :=
  match mapGet s.proxyHealth url with
  | none => s
  | some h =>
    let h' := { h with failures := 0, lastSuccess := some now, isHealthy := true }
    { s with proxyHealth := mapSet s.proxyHealth url h' }

/-- The shared round-robin arm of `ProxyManager.selectProxyFromList`
(also reached from sticky mode by fall-through). -/
def rrPick (list : List ProxyConfig) (s : PMState) : Option ProxyConfig × PMState :=
  (list[s.currentIndex % list.length]?, { s with currentIndex := s.currentIndex + 1 })

/-- Models `ProxyManager.selectProxyFromList`.  `r` supplies the value of
`Math.floor(Math.random() * list.length)` as `r % list.length`. -/
def selectProxyFromList (list : List ProxyConfig) (token : Option String)
    (r : Nat) (s : PMState) : Option ProxyConfig × PMState :=
  if list.isEmpty then (none, s)
  else
    match s.rotationMode with
    | .sticky =>
      match token with
      | some t =>
        match mapGet s.proxyMap t with
        | some a =>
          match List.find? (fun p =>
              match mapGet s.proxyHealth (getProxyUrl p) with
              | some h => h.agent == a
              | none => false) list with
          | some p => (some p, s)
          | none => rrPick list s
        | none => rrPick list s
      | none => rrPick list s
    | .roundRobin => rrPick list s
    | .random => (list[r % list.length]?, s)

/-- Models `ProxyManager.selectProxy`. -/
def selectProxy (token : Option String) (now : Int) (r : Nat) (s : PMState) :
    Option ProxyConfig × PMState :=
  let (healthy, s₁) := getHealthyProxies now s
  if healthy.isEmpty then
    if s₁.proxies.isEmpty then (none, s₁)
    else selectProxyFromList s₁.proxies token r s₁
  else selectProxyFromList healthy token r s₁

/-- The cached-agent validity check at the top of
`ProxyManager.getProxyForToken`: the first health entry whose agent is the
cached one must exist (with a truthy URL) and be healthy. -/
def stickyCachedHealthy (s : PMState) (a : Nat) : Bool :=
  match List.find? (fun e => e.2.agent == a) s.proxyHealth with
  | some (url, _) =>
    if url = "" then false
    else
      match mapGet s.proxyHealth url with
      | some h => h.isHealthy
      | none => false
  | none => false

/-- Models `ProxyManager.getProxyForToken` (also exposed as
`ProxyManager.getAgent`); returns the selected agent's identity. -/
def getProxyForToken (token : String) (now : Int) (r : Nat) (s : PMState) :
    Option Nat × PMState :=
  let cached : Option Nat :=
    if s.rotationMode = .sticky then
      match mapGet s.proxyMap token with
      | some a => if stickyCachedHealthy s a then some a else none
      | none => none
    else none
  match cached with
  | some a => (some a, s)
  | none =>
    if s.proxies.isEmpty then (none, s)
    else
      match selectProxy (some token) now r s with
      | (none, s₁) => (none, s₁)
      | (some p, s₁) =>
        let (a, s₂) := getOrCreateAgent now p s₁
        let s₃ := if s₂.rotationMode = .sticky
                  then { s₂ with proxyMap := mapSet s₂.proxyMap token a }
                  else s₂
        (some a, s₃)

/-- Models `ProxyManager.getRandomAgent`; `r` supplies the random draw. -/
def getRandomAgent (now : Int) (r : Nat) (s : PMState) : Option Nat × PMState :=
  let (healthy, s₁) := getHealthyProxies now s
  if healthy.isEmpty then
    if s₁.proxies.isEmpty then (none, s₁)
    else
      match s₁.proxies[r % s₁.proxies.length]? with
      | some p => let (a, s₂) := getOrCreateAgent now p s₁; (some a, s₂)
      | none => (none, s₁)
  else
    match healthy[r % healthy.length]? with
    | some p => let (a, s₂) := getOrCreateAgent now p s₁; (some a, s₂)
    | none => (none, s₁)

/-- Models `ProxyManager.getProxyUrlForAgent`. -/
def getProxyUrlForAgent (a : Nat) (s : PMState) : Option String :=
  (List.find? (fun e => e.2.agent == a) s.proxyHealth).map (fun e => e.1)

/-- Whitespace trim on both ends; models `String.prototype.trim`. -/
def trimChars (l : List Char) : List Char :=
  ((l.dropWhile Char.isWhitespace).reverse.dropWhile Char.isWhitespace).reverse

/-- Models JavaScript `String.prototype.split` with a one-character
separator. -/
def splitChar (sep : Char) : List Char → List (List Char)
  | [] => [[]]
  | c :: rest =>
    let r := splitChar sep rest
    if c = sep then [] :: r
    else
      match r with
      | [] => [[c]]
      | h :: t => (c :: h) :: t

/-- Models the destructuring `const [user, pass, host, port] =
line.split(':')`; missing components are `undefined` (here `none`). -/
def parseProxyLine (line : String) :
    Option String × Option String × Option String × Option String :=
  let parts := (splitChar ':' line.data).map (fun cs => String.mk cs)
  (parts[0]?, parts[1]?, parts[2]?, parts[3]?)

/-- The filter callback of `loadProxies`.  When `host` is `undefined` the
source calls `.includes` on it, which raises a `TypeError` (modelled as
`Except.error`); that exception is caught by `loadProxies`, which then
clears the pool. -/
def validProxyCheck :
    Option String × Option String × Option String × Option String →
    Except Unit Bool
  | (_, _, none, _) => .error ()
  | (_, _, some host, port) =>
    .ok (!(strContains host "example.com" || strContains host "example" ||
           host = "localhost" || host = "127.0.0.1" || host = "" ||
           (match port with | none => true | some pt => pt = "")))

/-- The `allProxies.filter(...)` loop of `loadProxies`, propagating the
`TypeError` on malformed entries. -/
def filterProxiesE :
    List (Option String × Option String × Option String × Option String) →
    Except Unit (List ProxyConfig)
  | [] => .ok []
  | entry :: rest =>
    match validProxyCheck entry with
    | .error _ => .error ()
    | .ok keep =>
      match filterProxiesE rest with
      | .error _ => .error ()
      | .ok tail =>
        if keep then
          .ok ({ user := entry.1.getD "", pass := entry.2.1.getD "",
                 host := entry.2.2.1.getD "", port := entry.2.2.2.getD "" } :: tail)
        else .ok tail

/-- Models `ProxyManager.loadProxies` applied to the text content of the
proxy file: split into lines, trim, drop empty lines, parse, filter; any
exception inside the `try` block leaves the pool empty. -/
def loadProxies (content : String) : List ProxyConfig :=
  let lines := (splitChar '\n' content.data).map (fun cs => String.mk (trimChars cs))
  let nonEmpty := lines.filter (fun l => l.length > 0)
  match filterProxiesE (nonEmpty.map parseProxyLine) with
  | .ok l => l
  | .error _ => []

end ProxyManager

/-- JavaScript `a || b` specialised to strings read from headers
(`null`/`undefined` and the empty string are falsy). -/
def jsStrOr (a : Option String) (b : String) : String :=
  match a with
  | some s => if s = "" then b else s
  | none => b

/-- Models the JavaScript regex `/ct0=([^;]+)/` (and the stricter variants)
on a character list: find the first position where `ct0=` is followed by at
least one character not rejected by `stop`, and return that maximal run. -/
def ct0Scan (stop : Char → Bool) : List Char → Option String
  | [] => none
  | c :: rest =>
    if c = 'c' ∧ rest.take 3 = ['t', '0', '='] then
      let body := (rest.drop 3).takeWhile (fun d => !(stop d))
      if body.isEmpty then ct0Scan stop rest else some (String.mk body)
    else ct0Scan stop rest

/-- Models `s.match(/ct0=([^;]+)/)?.[1]`. -/
def matchCt0Semicolon (s : String) : Option String :=
  ct0Scan (fun c => c == ';') s.data

/-- Models `s.match(/ct0=([^;,\s]+)/)?.[1]`. -/
def matchCt0Strict (s : String) : Option String :=
  ct0Scan (fun c => c == ';' || c == ',' || c.isWhitespace) s.data

/-- One lowercase hex digit, as produced by `n.toString(16)` for `n < 16`. -/
def hexChar (n : Nat) : Char :=
  if n < 10 then Char.ofNat (48 + n) else Char.ofNat (87 + n)

/-- Models `generateFallbackCT0` from `auth.ts`: 32 random hex characters;
`rand i` supplies the i-th `Math.floor(Math.random() * 16)` draw. -/
def generateFallbackCT0 (rand : Nat → Nat) : String :=
  String.mk ((List.range 32).map (fun i => hexChar (rand i % 16)))

/-- A transport-level failure (a rejected fetch): the `Error` object's
`message`, optional `code`, and optional `cause.message`. -/
structure TransportError where
  message : String
  code : Option String := none
  causeMessage : Option String := none
deriving DecidableEq, Repr

/-- The response headers the token-derivation code reads. -/
structure HeaderBag where
  setCookie : Option String := none
  cookie : Option String := none
deriving DecidableEq, Repr

/-- Oracle for the two network calls `fetchCSRFToken` can make, plus the
randomness source for the fallback token. -/
structure DeriveEnv where
  credResult : Except TransportError HeaderBag
  homeResult : Except TransportError HeaderBag
  rand : Nat → Nat

/-- The hard-coded `auth_token → ct0` table from `auth.ts`. -/
def CT0_OVERRIDES : List (String × String) :=
  [("f3d3b05733d06082f7dae6139040be5d3e7cf203",
    "8e27de1c58d6d6de0442b58be6a5ca7038045cff2fa3c4b83fbf61286f6452302d424e11b50c8b8d01f6ab26461c380e072cc66e25a8a2d171a4c53bba3a11d06e495e1af7ae9e62bb3cc2fd618f9ed3"),
   ("db1e89bcd4b026a20af710915319bb0630dba85e",
    "8be1ddade8e8578c569fc0b81bfd85721b5179c743bbbba7c2c2cf3b96da1832615ef7ad668bfa151b52b6142d2a0006a453ec596dc57490a7686507a3ece3f50bba4eb5ed2e575bef565d6aca581ab3")]

/-- The network-based ct0 discovery of `fetchCSRFToken` (steps 2-3 and the
fallbacks); any rejected call is caught and degraded to the locally
generated token. -/
def deriveCt0 (env : DeriveEnv) : String :=
  match env.credResult with
  | .error _ => generateFallbackCT0 env.rand
  | .ok resp =>
    let first : Option String :=
      match resp.setCookie with
      | some sc => if sc = "" then none else matchCt0Semicolon sc
      | none => none
    match first with
    | some ct0 => ct0
    | none =>
      let allCookies := jsStrOr resp.setCookie (jsStrOr resp.cookie "")
      match matchCt0Strict allCookies with
      | some ct0 => ct0
      | none =>
        match env.homeResult with
        | .error _ => generateFallbackCT0 env.rand
        | .ok home =>
          match matchCt0Semicolon (jsStrOr home.setCookie "") with
          | some ct0 => ct0
          | none => generateFallbackCT0 env.rand

/-- Models `fetchCSRFToken` from `auth.ts`.  The second component records
whether the override branch was NOT taken, i.e. whether network-based
derivation was attempted. -/
def fetchCSRFToken (authToken : String) (env : DeriveEnv) : String × Bool :=
  match mapGet CT0_OVERRIDES authToken with
  | some override => if override = "" then (deriveCt0 env, true) else (override, false)
  | none => (deriveCt0 env, true)

/-- One entry of the platform error list (`{code, message}`). -/
structure ErrObj where
  code : Option Int := none
  message : Option String := none
deriving DecidableEq, Repr

/-- The `errors` field of a response body: a single error object or an
array of them. -/
inductive ErrorsVal
  | single (e : ErrObj)
  | arr (es : List ErrObj)
deriving DecidableEq, Repr

/-- A parsed response body as far as the classifiers inspect it: either an
object (with an optional `errors` field) or raw non-JSON text. -/
inductive BodyData
  | raw (s : String)
  | obj (errors : Option ErrorsVal)
deriving DecidableEq, Repr

/-- The `ResponseData` envelope returned by `TwitterClient.makeRequest`. -/
structure ResponseData where
  ok : Bool
  status : Int
  statusText : String
  data : BodyData
deriving DecidableEq, Repr

structure BotDetectionResult where
  detected : Bool
  error : Option String := none
deriving DecidableEq, Repr

structure DuplicateErrorResult where
  duplicate : Bool
  error : Option String := none
deriving DecidableEq, Repr

/-- The `Array.isArray(data.errors) ? data.errors : [data.errors]`
normalization. -/
def normalizeErrors : ErrorsVal → List ErrObj
  | .single e => [e]
  | .arr es => es

namespace TwitterClient

/-- Models `TwitterClient.isBotDetected`. -/
def isBotDetected (r : ResponseData) : BotDetectionResult :=
  if r.status = 226 then
    { detected := true, error := some "Error 226: Bot detection triggered" }
  else if r.status = 403 then
    match r.data with
    | .obj (some ev) =>
      if (normalizeErrors ev).any (fun e => e.code == some 226) then
        { detected := true, error := some "Error 226: Bot detection triggered" }
      else { detected := false }
    | _ => { detected := false }
  else { detected := false }

/-- The predicate of the `errors.find(...)` call in
`TwitterClient.isDuplicateError`. -/
def duplicatePred (e : ErrObj) : Bool :=
  e.code == some 187 ||
    (match e.message with
     | some m => m != "" && strContains m "duplicate"
     | none => false)

/-- Models `TwitterClient.isDuplicateError`. -/
def isDuplicateError (r : ResponseData) : DuplicateErrorResult :=
  match r.data with
  | .obj (some ev) =>
    match (normalizeErrors ev).find? duplicatePred with
    | some de =>
      { duplicate := true,
        error := some ("Error 187: Duplicate tweet - " ++ jsStrOr de.message "Status is a duplicate") }
    | none => { duplicate := false }
  | _ => { duplicate := false }

/-- Models `TwitterClient.isRetryableError`. -/
def isRetryableError (e : TransportError) : Bool :=
  strContains e.message "ECONNREFUSED" || strContains e.message "ENOTFOUND" ||
  strContains e.message "timeout" || strContains e.message "ETIMEDOUT" ||
  strContains e.message "fetch failed" ||
  e.code == some "ENOTFOUND" || e.code == some "ECONNREFUSED" ||
  e.code == some "ETIMEDOUT" || e.code == some "ECONNRESET"

/-- The kind tag of the error `makeRequest` raises when it gives up. -/
inductive ErrKind
  | network
  | timeout
  | tls
  | connectionFailed
  | generic
deriving DecidableEq, Repr

/-- Models the error-classification `if`/`else` chain at the end of
`TwitterClient.makeRequest`'s catch block. -/
def classifyError (e : TransportError) : ErrKind × String :=
  let em0 := e.message ++ (match e.code with | some c => " (code: " ++ c ++ ")" | none => "")
  let em := em0 ++ (match e.causeMessage with | some c => " (cause: " ++ c ++ ")" | none => "")
  if strContains e.message "ECONNREFUSED" || strContains e.message "ENOTFOUND" ||
     e.code == some "ENOTFOUND" || e.code == some "ECONNREFUSED" then
    (.network, "Network error: Cannot connect to Twitter. Check internet connection and DNS. " ++ em)
  else if strContains e.message "timeout" || e.code == some "ETIMEDOUT" then
    (.timeout, "Request timeout: Request took too long. Try again or check proxy. " ++ em)
  else if strContains e.message "certificate" || strContains e.message "SSL" ||
          e.code == some "CERT_HAS_EXPIRED" then
    (.tls, "SSL/TLS error: Certificate issue. " ++ em)
  else if strContains e.message "fetch failed" || e.message = "fetch failed" then
    let details := match e.causeMessage with | some c => " (" ++ c ++ ")" | none => ""
    (.connectionFailed, "Connection failed: Cannot reach Twitter API. Original error: " ++ em ++ details)
  else (.generic, "Request failed: " ++ em)

/-- One entry of the client's `tokenCache` map. -/
structure TokenCacheEntry where
  ct0 : String
  agent : Option Nat
  useProxy : Bool
deriving DecidableEq, Repr

/-- State of a `TwitterClient` instance: its `ProxyManager` and the
`authToken → {ct0, agent, useProxy}` cache. -/
structure ClientState where
  pm : PMState
  tokenCache : List (String × TokenCacheEntry)
deriving DecidableEq, Repr

/-- Models `TwitterClient.getCSRFToken`.  The middle component records
whether a derivation (`fetchCSRFToken` call) was performed, i.e. whether
the cache missed. -/
def getCSRFToken (authToken : String) (env : DeriveEnv) (now : Int) (r : Nat)
    (s : ClientState) : String × Bool × ClientState :=
  match mapGet s.tokenCache authToken with
  | some cached => (cached.ct0, false, s)
  | none =>
    let (ct0, _) := fetchCSRFToken authToken env
    let (agent, pm') := ProxyManager.getProxyForToken authToken now r s.pm
    let entry : TokenCacheEntry := { ct0 := ct0, agent := agent, useProxy := agent.isSome }
    (ct0, true, { pm := pm', tokenCache := mapSet s.tokenCache authToken entry })

/-- A completed transport response as `makeRequest` observes it; the body
is supplied already run through the `JSON.parse`-or-raw-text step. -/
structure Response where
  ok : Bool
  status : Int
  statusText : String
  setCookie : Option String := none
  data : BodyData
deriving DecidableEq, Repr

/-- Oracle for one `makeRequest` call tree: the derivation oracle, the
transport outcome of each attempt (indexed by retry count), per-attempt
clock readings, and the `Math.random` draws (slots `3k`, `3k+1`, `3k+2`
for attempt `k`). -/
structure MEnv where
  derive : DeriveEnv
  transport : Nat → Except TransportError Response
  attemptTime : Nat → Int
  rand : Nat → Nat

/-- Result of a `makeRequest` call: the returned envelope or the raised
kind-tagged error, the final client state, and the agent used by each
transport attempt (in order). -/
structure MkOut where
  result : Except (ErrKind × String) ResponseData
  state : ClientState
  attempts : List (Option Nat)

/-- Whether a `makeRequest` outcome returned an envelope (as opposed to
raising). -/
def MkOut.succeeded (o : MkOut) : Bool :=
  match o.result with
  | .ok _ => true
  | .error _ => false

/-- The `markProxySuccess` call on the success path of `makeRequest`. -/
def markSuccessState (agentOpt : Option Nat) (now : Int) (s : ClientState) : ClientState :=
  match agentOpt with
  | some a =>
    match ProxyManager.getProxyUrlForAgent a s.pm with
    | some url => { s with pm := ProxyManager.markProxySuccess url now s.pm }
    | none => s
  | none => s

/-- The `markProxyFailed` call on the failure path of `makeRequest`. -/
def markFailedState (agentOpt : Option Nat) (now : Int) (s : ClientState) : ClientState :=
  match agentOpt with
  | some a =>
    match ProxyManager.getProxyUrlForAgent a s.pm with
    | some url => { s with pm := ProxyManager.markProxyFailed url now s.pm }
    | none => s
  | none => s

/-- The in-place ct0 refresh from a `set-cookie` response header. -/
def updateCt0State (authToken : String) (setCookie : Option String)
    (s : ClientState) : ClientState :=
  match setCookie with
  | some sc =>
    if strContains sc "ct0=" then
      match matchCt0Semicolon sc with
      | some newCt0 =>
        match mapGet s.tokenCache authToken with
        | some c =>
          { s with tokenCache := mapSet s.tokenCache authToken ({ c with ct0 := newCt0 }) }
        | none => s
      | none => s
    else s
  | none => s

/-- The `tokenCache.get(authToken).agent = newAgent` update before a
retry. -/
def updateCachedAgent (authToken : String) (na : Nat) (s : ClientState) : ClientState :=
  match mapGet s.tokenCache authToken with
  | some c =>
    { s with tokenCache := mapSet s.tokenCache authToken ({ c with agent := some na }) }
  | none => s

/-- The token-cache step performed at the start of an attempt
(`getCSRFToken` inside `makeRequest`); `rc` is the retry count of the
attempt. -/
def attemptTokenState (env : MEnv) (authToken : String) (rc : Nat)
    (s : ClientState) : ClientState :=
  (getCSRFToken authToken env.derive (env.attemptTime rc) (env.rand (3 * rc)) s).2.2

/-- The agent resolved for an attempt (the `getAgent` call in
`makeRequest`). -/
def attemptAgent (env : MEnv) (authToken : String) (rc : Nat)
    (s : ClientState) : Option Nat :=
  (ProxyManager.getProxyForToken authToken (env.attemptTime rc)
    (env.rand (3 * rc + 1)) (attemptTokenState env authToken rc s).pm).1

/-- The client state right after the agent resolution of an attempt. -/
def attemptState (env : MEnv) (authToken : String) (rc : Nat)
    (s : ClientState) : ClientState :=
  let s₁ := attemptTokenState env authToken rc s
  { s₁ with pm := (ProxyManager.getProxyForToken authToken (env.attemptTime rc)
      (env.rand (3 * rc + 1)) s₁.pm).2 }

/-- The state after the failure report of an attempt. -/
def attemptFailedState (env : MEnv) (authToken : String) (rc : Nat)
    (s : ClientState) : ClientState :=
  markFailedState (attemptAgent env authToken rc s) (env.attemptTime rc)
    (attemptState env authToken rc s)

/-- The `getRandomAgent` draw made when an attempt considers retrying. -/
def replacementDraw (env : MEnv) (authToken : String) (rc : Nat)
    (s : ClientState) : Option Nat × PMState :=
  ProxyManager.getRandomAgent (env.attemptTime rc) (env.rand (3 * rc + 2))
    (attemptFailedState env authToken rc s).pm

/-- Models `TwitterClient.makeRequest`, made structurally recursive on a
fuel argument; the wrapper `makeRequest` supplies `maxRetries + 1 -
retryCount` fuel, which is exact: the fuel-zero branch is unreachable for
`retryCount ≤ maxRetries` because the recursive call requires
`retryCount < maxRetries`.  URL and header construction have no observable
effect in this model and are omitted. -/
def makeRequestAux (env : MEnv) (authToken : String) (maxRetries : Nat) :
    Nat → Nat → ClientState → MkOut
  | 0, _, s => { result := .error (.generic, "retry budget accounting error"), state := s, attempts := [] }
  | fuel + 1, retryCount, s =>
    if authToken = "" then
      { result := .error (.generic, "Auth token required"), state := s, attempts := [] }
    else
      let now := env.attemptTime retryCount
      let agentOpt := attemptAgent env authToken retryCount s
      let s₂ := attemptState env authToken retryCount s
      match env.transport retryCount with
      | .ok resp =>
        let s₃ := markSuccessState agentOpt now s₂
        let s₄ := updateCt0State authToken resp.setCookie s₃
        { result := .ok { ok := resp.ok, status := resp.status, statusText := resp.statusText, data := resp.data },
          state := s₄, attempts := [agentOpt] }
      | .error e =>
        let s₃ := attemptFailedState env authToken retryCount s
        if isRetryableError e && decide (retryCount < maxRetries) && agentOpt.isSome then
          let s₄ : ClientState := { s₃ with pm := (replacementDraw env authToken retryCount s).2 }
          match (replacementDraw env authToken retryCount s).1 with
          | some na =>
            if some na ≠ agentOpt then
              let s₅ := updateCachedAgent authToken na s₄
              let out := makeRequestAux env authToken maxRetries fuel (retryCount + 1) s₅
              { result := out.result, state := out.state, attempts := agentOpt :: out.attempts }
            else { result := .error (classifyError e), state := s₄, attempts := [agentOpt] }
          | none => { result := .error (classifyError e), state := s₄, attempts := [agentOpt] }
        else { result := .error (classifyError e), state := s₃, attempts := [agentOpt] }

/-- Models `TwitterClient.makeRequest` (defaults: `retryCount = 0`,
`maxRetries = 2`). -/
def makeRequest (env : MEnv) (authToken : String) (retryCount maxRetries : Nat)
    (s : ClientState) : MkOut :=
  makeRequestAux env authToken maxRetries (maxRetries + 1 - retryCount) retryCount s

end TwitterClient

section ClassifierClaims

open TwitterClient

/-- Spec-side formulation of "the structured error list in the body contains
an error whose code equals `c`". -/
def bodyHasErrorCode (d : BodyData) (c : Int) : Bool :=
  match d with
  | .obj (some ev) => (normalizeErrors ev).any (fun e => e.code == some c)
  | _ => false

/-- Spec-side formulation of the normalized error list of a body. -/
def bodyErrors (d : BodyData) : List ErrObj :=
  match d with
  | .obj (some ev) => normalizeErrors ev
  | _ => []

/-- A response with a success status but an error-226 body: the claim says
bot detection should fire on it regardless of status. -/
def botBody226 : ResponseData :=
  { ok := true, status := 200, statusText := "OK",
    data := .obj (some (.arr [{ code := some 226, message := none }])) }

/-- Claim C4 (counterexample): on a status-200 response whose body carries an
error with code 226, `isBotDetected` reports `detected = false`, because the
source only inspects the body's error list when the status is 403 — the
claim's "regardless of which status code accompanies the body" is false. -/
theorem claimC4_counterexample :
    bodyHasErrorCode botBody226.data 226 = true ∧
    botBody226.status = 200 ∧
    (isBotDetected botBody226).detected = false := by
  refine ⟨by decide, by decide, by decide⟩

/-- Claim C4 (amended): `isBotDetected` reports `detected = true` exactly
when the status equals 226, or the status equals 403 and the normalized
error list of the body contains an error whose code equals 226. -/
theorem claimC4_amended (r : ResponseData) :
    (isBotDetected r).detected =
      (r.status == 226 || (r.status == 403 && bodyHasErrorCode r.data 226)) := by
  unfold isBotDetected bodyHasErrorCode
  by_cases h1 : r.status = 226
  · simp [h1]
  · by_cases h2 : r.status = 403
    · simp only [if_neg h1, if_pos h2, h2]
      cases hd : r.data with
      | raw s => simp [h1]
      | obj o =>
        cases o with
        | none => simp [h1]
        | some ev =>
          by_cases h3 : (normalizeErrors ev).any (fun e => e.code == some 226)
          · simp [h1, h3]
          · simp [h1, h3]
    · cases hd : r.data with
      | raw s => simp [h1, h2]
      | obj o =>
        cases o with
        | none => simp [h1, h2]
        | some ev => simp [h1, h2]

/-- The per-error predicate of `isDuplicateError`, phrased as the spec
phrases it (code 187, or a message containing "duplicate"). -/
theorem duplicatePred_iff (e : ErrObj) :
    duplicatePred e = true ↔
      (e.code = some 187 ∨ ∃ m, e.message = some m ∧ strContains m "duplicate" = true) := by
  unfold duplicatePred
  cases hm : e.message with
  | none =>
    simp only [Bool.or_eq_true, beq_iff_eq]
    constructor
    · rintro (h | h)
      · exact Or.inl h
      · cases h
    · rintro (h | ⟨m, hm', _⟩)
      · exact Or.inl h
      · simp at hm'
  | some m =>
    simp only [Bool.or_eq_true, beq_iff_eq, Bool.and_eq_true, bne_iff_ne, ne_eq]
    constructor
    · rintro (h | ⟨_, h⟩)
      · exact Or.inl h
      · exact Or.inr ⟨m, rfl, h⟩
    · rintro (h | ⟨m', hm', h⟩)
      · exact Or.inl h
      · injection hm' with hmm
        subst hmm
        refine Or.inr ⟨?_, h⟩
        intro hempty
        subst hempty
        exact absurd h (by decide)

/-- Bridge between `List.find?` (as the source uses) and existence. -/
theorem find?_isSome_iff {α : Type} (p : α → Bool) (l : List α) :
    (List.find? p l).isSome = true ↔ ∃ x ∈ l, p x = true := by
  constructor
  · intro h
    obtain ⟨a, ha⟩ := Option.isSome_iff_exists.mp h
    exact ⟨a, List.mem_of_find?_eq_some ha, List.find?_some ha⟩
  · rintro ⟨x, hx, hpx⟩
    cases hf : List.find? p l with
    | some a => rfl
    | none => exact absurd hpx (by simpa using List.find?_eq_none.mp hf x hx)

/-- A status-200 response carrying the duplicate-tweet error in its body. -/
def dup200 : ResponseData :=
  { ok := true, status := 200, statusText := "OK",
    data := .obj (some (.arr [{ code := some 187, message := some "Status is a duplicate" }])) }

/-- Claim C5: `isDuplicateError` reports `duplicate = true` exactly when the
normalized error list of the body contains an error whose code is 187 or
whose message contains the substring "duplicate"; in particular it fires on
a status-200 response with such a body. -/
theorem claimC5 :
    (∀ r : ResponseData,
      (isDuplicateError r).duplicate = true ↔
        ∃ e ∈ bodyErrors r.data,
          e.code = some 187 ∨ ∃ m, e.message = some m ∧ strContains m "duplicate" = true) ∧
    dup200.status = 200 ∧ (isDuplicateError dup200).duplicate = true := by
  refine ⟨fun r => ?_, by decide, by decide⟩
  unfold isDuplicateError bodyErrors
  cases hd : r.data with
  | raw s => simp
  | obj o =>
    cases o with
    | none => simp
    | some ev =>
      simp only
      constructor
      · intro h
        cases hf : (normalizeErrors ev).find? duplicatePred with
        | none => rw [hf] at h; simp at h
        | some de =>
          have hmem := List.mem_of_find?_eq_some hf
          have hp := List.find?_some hf
          exact ⟨de, hmem, (duplicatePred_iff de).mp hp⟩
      · rintro ⟨e, he, hcond⟩
        have : (List.find? duplicatePred (normalizeErrors ev)).isSome = true :=
          (find?_isSome_iff duplicatePred (normalizeErrors ev)).mpr
            ⟨e, he, (duplicatePred_iff e).mpr hcond⟩
        cases hf : (normalizeErrors ev).find? duplicatePred with
        | none => rw [hf] at this; cases this
        | some de => simp

end ClassifierClaims

section LoadAndFrameClaims

open ProxyManager

/-- Claim C8: loading the two-line configuration with one placeholder entry
keeps only the real entry, and an empty pool makes `getProxyForToken`
return `null` (direct-connection mode) without touching the state. -/
theorem claimC8 :
    loadProxies "user:pass:example.com:8080\nuser:pass:realhost.test:8080" =
      [{ user := "user", pass := "pass", host := "realhost.test", port := "8080" }] ∧
    ∀ (s : PMState) (token : String) (now : Int) (r : Nat),
      s.proxies = [] → s.proxyHealth = [] →
      getProxyForToken token now r s = (none, s) := by
  refine ⟨by decide, fun s token now r hp hh => ?_⟩
  unfold getProxyForToken
  have hsc : ∀ a, stickyCachedHealthy s a = false := by
    intro a
    unfold stickyCachedHealthy
    rw [hh]
    rfl
  have hempty : s.proxies.isEmpty = true := by rw [hp]; rfl
  cases hmode : s.rotationMode <;>
    cases hmap : mapGet s.proxyMap token <;>
      simp [hmode, hmap, hsc, hempty]

/-- Witness for claim C8 at the freshly constructed manager. -/
theorem claimC8_witness :
    ProxyManager.mkPM.proxies = [] ∧
    getProxyForToken "t" 0 0 ProxyManager.mkPM = (none, ProxyManager.mkPM) :=
  ⟨rfl, claimC8.2 ProxyManager.mkPM "t" 0 0 rfl rfl⟩

/-- Claim C10: reporting success or failure for a proxy URL with no health
record leaves the manager state unchanged (no record is created), while
`getOrCreateAgent` does install a record for the proxy it selects. -/
theorem claimC10 (url : String) (now : Int) (s : PMState)
    (h : mapGet s.proxyHealth url = none) :
    markProxyFailed url now s = s ∧
    markProxySuccess url now s = s ∧
    ∀ (p : ProxyConfig) (s' : PMState) (now' : Int),
      (mapGet ((getOrCreateAgent now' p s').2.proxyHealth) (getProxyUrl p)).isSome = true := by
  refine ⟨?_, ?_, fun p s' now' => ?_⟩
  · unfold markProxyFailed; rw [h]
  · unfold markProxySuccess; rw [h]
  · unfold getOrCreateAgent
    dsimp only
    cases hg : mapGet s'.proxyHealth (getProxyUrl p) with
    | none => simp [mapGet_mapSet]
    | some hh =>
      by_cases hy : hh.isHealthy
      · simp [hy, hg]
      · simp [hy, mapGet_mapSet]

/-- Witness for claim C10 on a fresh manager and an unknown URL. -/
theorem claimC10_witness :
    mapGet ProxyManager.mkPM.proxyHealth "http://u:p@unknown.test:80" = none ∧
    markProxyFailed "http://u:p@unknown.test:80" 5 ProxyManager.mkPM = ProxyManager.mkPM :=
  ⟨rfl, (claimC10 "http://u:p@unknown.test:80" 5 ProxyManager.mkPM rfl).1⟩

end LoadAndFrameClaims

section AuthClaims

/-- Any token produced by the `/ct0=.../` scan is non-empty. -/
theorem ct0Scan_pos (stop : Char → Bool) :
    ∀ (l : List Char) (t : String), ct0Scan stop l = some t → 0 < t.length := by
  intro l
  induction l with
  | nil => intro t h; cases h
  | cons c rest ih =>
    intro t h
    unfold ct0Scan at h
    by_cases hc : c = 'c' ∧ rest.take 3 = ['t', '0', '=']
    · rw [if_pos hc] at h
      by_cases hb : ((rest.drop 3).takeWhile (fun d => !(stop d))).isEmpty
      · rw [if_pos hb] at h; exact ih t h
      · rw [if_neg hb] at h
        injection h with h
        subst h
        have : (rest.drop 3).takeWhile (fun d => !(stop d)) ≠ [] := by
          intro he; rw [List.isEmpty_iff] at hb; exact hb he
        show 0 < ((rest.drop 3).takeWhile (fun d => !(stop d))).length
        exact List.length_pos.mpr this
    · rw [if_neg hc] at h; exact ih t h

/-- The locally generated fallback token always has 32 characters. -/
theorem generateFallbackCT0_length (rand : Nat → Nat) :
    (generateFallbackCT0 rand).length = 32 := by
  show ((List.range 32).map (fun i => hexChar (rand i % 16))).length = 32
  rw [List.length_map, List.length_range]

/-- Positivity transported through `matchCt0Semicolon`. -/
theorem matchCt0Semicolon_pos {s t : String} (h : matchCt0Semicolon s = some t) :
    0 < t.length := by
  unfold matchCt0Semicolon at h
  exact ct0Scan_pos _ _ _ h

/-- Positivity transported through `matchCt0Strict`. -/
theorem matchCt0Strict_pos {s t : String} (h : matchCt0Strict s = some t) :
    0 < t.length := by
  unfold matchCt0Strict at h
  exact ct0Scan_pos _ _ _ h

/-- The fallback token is non-empty. -/
theorem generateFallbackCT0_pos (rand : Nat → Nat) :
    0 < (generateFallbackCT0 rand).length := by
  rw [generateFallbackCT0_length]; norm_num

/-- Network-based derivation never yields an empty token. -/
theorem deriveCt0_pos (env : DeriveEnv) : 0 < (deriveCt0 env).length := by
  unfold deriveCt0
  split
  · exact generateFallbackCT0_pos env.rand
  · dsimp only
    split
    · rename_i ct0 heq
      split at heq
      · rename_i sc
        split at heq
        · cases heq
        · exact matchCt0Semicolon_pos heq
      · cases heq
    · split
      · rename_i ct0 heq
        exact matchCt0Strict_pos heq
      · split
        · exact generateFallbackCT0_pos env.rand
        · split
          · rename_i ct0 heq
            exact matchCt0Semicolon_pos heq
          · exact generateFallbackCT0_pos env.rand

/-- `fetchCSRFToken` always returns a non-empty token. -/
theorem fetchCSRFToken_pos (tok : String) (env : DeriveEnv) :
    0 < (fetchCSRFToken tok env).1.length := by
  unfold fetchCSRFToken
  cases hov : mapGet CT0_OVERRIDES tok with
  | none => exact deriveCt0_pos env
  | some ov =>
    dsimp only
    by_cases he : ov = ""
    · rw [if_pos he]; exact deriveCt0_pos env
    · rw [if_neg he]
      show 0 < ov.length
      refine Nat.pos_of_ne_zero (fun h0 => he ?_)
      cases ov with
      | mk l =>
        cases l with
        | nil => rfl
        | cons c cs => exact absurd h0 (by simp [String.length])

/-- When the credentials call rejects, derivation degrades to the local
fallback token. -/
theorem deriveCt0_error (env : DeriveEnv) (e : TransportError)
    (h : env.credResult = .error e) :
    deriveCt0 env = generateFallbackCT0 env.rand := by
  unfold deriveCt0
  rw [h]

/-- Claim C3: `getCSRFToken` never propagates a derivation failure — on a
cache miss it returns a non-empty token, and when derivation was attempted
(no hard-coded override) and the network call rejected, that token is the
locally generated fallback; on a cache hit it returns the cached token with
no derivation attempt and no state change. -/
theorem claimC3 (tok : String) (env : DeriveEnv) (now : Int) (r : Nat)
    (s : TwitterClient.ClientState) :
    (mapGet s.tokenCache tok = none →
       0 < (TwitterClient.getCSRFToken tok env now r s).1.length ∧
       (mapGet CT0_OVERRIDES tok = none →
        ∀ e, env.credResult = .error e →
          (TwitterClient.getCSRFToken tok env now r s).1 = generateFallbackCT0 env.rand)) ∧
    (∀ c, mapGet s.tokenCache tok = some c →
       TwitterClient.getCSRFToken tok env now r s = (c.ct0, false, s)) := by
  constructor
  · intro hmiss
    unfold TwitterClient.getCSRFToken
    rw [hmiss]
    dsimp only
    constructor
    · exact fetchCSRFToken_pos tok env
    · intro hov e he
      show (fetchCSRFToken tok env).1 = generateFallbackCT0 env.rand
      unfold fetchCSRFToken
      rw [hov]
      exact deriveCt0_error env e he
  · intro c hhit
    unfold TwitterClient.getCSRFToken
    rw [hhit]

/-- A derivation oracle in which every network call rejects. -/
def envAllFail : DeriveEnv :=
  { credResult := .error { message := "fetch failed" },
    homeResult := .error { message := "fetch failed" },
    rand := fun _ => 7 }

/-- A freshly constructed client (empty caches, empty pool). -/
def emptyClient : TwitterClient.ClientState :=
  { pm := ProxyManager.mkPM, tokenCache := [] }

/-- Witness for claim C3: a never-seen token with a failing derivation
oracle still yields the (non-empty) fallback token. -/
theorem claimC3_witness :
    mapGet emptyClient.tokenCache "tokX" = none ∧
    0 < (TwitterClient.getCSRFToken "tokX" envAllFail 0 0 emptyClient).1.length ∧
    (TwitterClient.getCSRFToken "tokX" envAllFail 0 0 emptyClient).1 =
      generateFallbackCT0 envAllFail.rand :=
  ⟨rfl,
   ((claimC3 "tokX" envAllFail 0 0 emptyClient).1 rfl).1,
   ((claimC3 "tokX" envAllFail 0 0 emptyClient).1 rfl).2 rfl { message := "fetch failed" } rfl⟩

/-- Claim C9: for the two auth tokens in the hard-coded override table,
`fetchCSRFToken` returns the hard-coded ct0 with no network derivation
(regardless of the network oracle); for every other token the override
branch is not taken and derivation is attempted. -/
theorem claimC9 :
    (∀ env : DeriveEnv,
       fetchCSRFToken "f3d3b05733d06082f7dae6139040be5d3e7cf203" env =
         ("8e27de1c58d6d6de0442b58be6a5ca7038045cff2fa3c4b83fbf61286f6452302d424e11b50c8b8d01f6ab26461c380e072cc66e25a8a2d171a4c53bba3a11d06e495e1af7ae9e62bb3cc2fd618f9ed3",
          false)) ∧
    (∀ env : DeriveEnv,
       fetchCSRFToken "db1e89bcd4b026a20af710915319bb0630dba85e" env =
         ("8be1ddade8e8578c569fc0b81bfd85721b5179c743bbbba7c2c2cf3b96da1832615ef7ad668bfa151b52b6142d2a0006a453ec596dc57490a7686507a3ece3f50bba4eb5ed2e575bef565d6aca581ab3",
          false)) ∧
    (∀ (t : String) (env : DeriveEnv),
       mapGet CT0_OVERRIDES t = none → (fetchCSRFToken t env).2 = true) := by
  refine ⟨fun env => rfl, fun env => rfl, fun t env h => ?_⟩
  unfold fetchCSRFToken
  rw [h]

/-- Witness for claim C9's non-override branch. -/
theorem claimC9_witness :
    mapGet CT0_OVERRIDES "someOtherToken" = none ∧
    (fetchCSRFToken "someOtherToken" envAllFail).2 = true :=
  ⟨rfl, claimC9.2.2 "someOtherToken" envAllFail rfl⟩

end AuthClaims

section StickyClaims

open ProxyManager

/-- `selectProxyFromList` either leaves the state untouched or only advances
the round-robin cursor. -/
theorem selectProxyFromList_shape (list : List ProxyConfig) (token : Option String)
    (r : Nat) (s : PMState) :
    (selectProxyFromList list token r s).2 = s ∨
    (selectProxyFromList list token r s).2 = { s with currentIndex := s.currentIndex + 1 } := by
  unfold selectProxyFromList rrPick
  repeat' split
  all_goals first
    | exact Or.inl rfl
    | exact Or.inr rfl

/-- `selectProxy` only rewrites the health map and possibly advances the
cursor. -/
theorem selectProxy_shape (token : Option String) (now : Int) (r : Nat) (s : PMState) :
    ∃ hp, (selectProxy token now r s).2 = { s with proxyHealth := hp } ∨
          (selectProxy token now r s).2 = { s with proxyHealth := hp, currentIndex := s.currentIndex + 1 } := by
  unfold selectProxy
  refine ⟨(healthFilter s.healthCheckInterval now s.proxies s.proxyHealth).2, ?_⟩
  show (let (healthy, s₁) := getHealthyProxies now s;
        if healthy.isEmpty then
          if s₁.proxies.isEmpty then (none, s₁)
          else selectProxyFromList s₁.proxies token r s₁
        else selectProxyFromList healthy token r s₁).2 = _ ∨ _
  have hs₁ : (getHealthyProxies now s).2 =
      { s with proxyHealth := (healthFilter s.healthCheckInterval now s.proxies s.proxyHealth).2 } := rfl
  dsimp only
  split
  · split
    · exact Or.inl rfl
    · rcases selectProxyFromList_shape ((getHealthyProxies now s).2.proxies) token r
        ((getHealthyProxies now s).2) with h | h <;> rw [h, hs₁]
      · exact Or.inl rfl
      · exact Or.inr rfl
  · rcases selectProxyFromList_shape ((getHealthyProxies now s).1) token r
      ((getHealthyProxies now s).2) with h | h <;> rw [h, hs₁]
    · exact Or.inl rfl
    · exact Or.inr rfl

/-- `getOrCreateAgent` only rewrites the health map and allocation
counter. -/
theorem getOrCreateAgent_shape (now : Int) (p : ProxyConfig) (s : PMState) :
    ∃ hp n, (getOrCreateAgent now p s).2 = { s with proxyHealth := hp, nextAgentId := n } := by
  unfold getOrCreateAgent
  dsimp only
  split
  · split
    · exact ⟨s.proxyHealth, s.nextAgentId, rfl⟩
    · exact ⟨_, _, rfl⟩
  · exact ⟨_, _, rfl⟩

/-- In sticky mode, a successful `getProxyForToken` leaves the returned
agent cached for the token, and the rotation mode unchanged. -/
theorem getProxyForToken_proxyMap_sticky (token : String) (now : Int) (r : Nat)
    (s : PMState) (hmode : s.rotationMode = .sticky) (a : Nat) (s₁ : PMState)
    (h : getProxyForToken token now r s = (some a, s₁)) :
    mapGet s₁.proxyMap token = some a ∧ s₁.rotationMode = .sticky := by
  have hrotSel : (selectProxy (some token) now r s).2.rotationMode = RotationMode.sticky := by
    obtain ⟨hp, hh | hh⟩ := selectProxy_shape (some token) now r s <;> rw [hh] <;> exact hmode
  unfold getProxyForToken at h
  rw [hmode] at h
  simp only [eq_self_iff_true, if_true] at h
  split at h
  · rename_i a' heq
    simp only [Prod.mk.injEq, Option.some.injEq] at h
    obtain ⟨ha, hs⟩ := h
    subst hs
    subst ha
    split at heq
    · rename_i a'' hm
      split at heq
      · rename_i hsc
        injection heq with ha''
        subst ha''
        exact ⟨hm, hmode⟩
      · cases heq
    · cases heq
  · rename_i heq
    split at h
    · simp at h
    · split at h
      · simp at h
      · rename_i p s' heq2
        have hs' : (selectProxy (some token) now r s).2 = s' := congrArg Prod.snd heq2
        split at h
        · rename_i hcond
          simp only [Prod.mk.injEq, Option.some.injEq] at h
          obtain ⟨ha, hs⟩ := h
          subst hs
          constructor
          · show mapGet (mapSet (getOrCreateAgent now p s').2.proxyMap token
                (getOrCreateAgent now p s').1) token = some a
            rw [mapGet_mapSet, if_pos rfl, ha]
          · exact hcond
        · rename_i hcond
          exfalso
          apply hcond
          obtain ⟨hp, nn, hh⟩ := getOrCreateAgent_shape now p s'
          rw [hh]
          show s'.rotationMode = RotationMode.sticky
          rw [← hs']
          exact hrotSel

/-- The early-return branch of `getProxyForToken`: a cached, still-healthy
sticky assignment is reused with no state change. -/
theorem getProxyForToken_cached (token : String) (now : Int) (r : Nat)
    (s : PMState) (a : Nat)
    (hmode : s.rotationMode = .sticky)
    (hmap : mapGet s.proxyMap token = some a)
    (hh : stickyCachedHealthy s a = true) :
    getProxyForToken token now r s = (some a, s) := by
  unfold getProxyForToken
  rw [hmode, hmap]
  simp [hh]

/-- Claim C6: in sticky mode, once `getProxyForToken` has returned an agent
for an identity and that agent's proxy is still healthy, every later call
for the same identity returns the very same agent (and leaves the state
unchanged). -/
theorem claimC6 (s : PMState) (token : String) (now₁ now₂ : Int) (r₁ r₂ : Nat)
    (a : Nat) (s₁ : PMState)
    (hmode : s.rotationMode = .sticky)
    (h1 : getProxyForToken token now₁ r₁ s = (some a, s₁))
    (hstill : stickyCachedHealthy s₁ a = true) :
    getProxyForToken token now₂ r₂ s₁ = (some a, s₁) := by
  obtain ⟨hmap, hmode₁⟩ := getProxyForToken_proxyMap_sticky token now₁ r₁ s hmode a s₁ h1
  exact getProxyForToken_cached token now₂ r₂ s₁ a hmode₁ hmap hstill

/-- A concrete proxy used by several witness scenarios. -/
def proxyA : ProxyConfig := { user := "u", pass := "p", host := "h1.test", port := "80" }

/-- A sticky-mode manager whose pool holds just `proxyA`. -/
def pmSticky : PMState := { ProxyManager.mkPM with proxies := [proxyA] }

/-- The manager state after the first selection for token "tok". -/
def pmStickyAfter : PMState := (getProxyForToken "tok" 0 0 pmSticky).2

/-- Witness for claim C6 on the concrete one-proxy sticky pool. -/
theorem claimC6_witness :
    pmSticky.rotationMode = RotationMode.sticky ∧
    getProxyForToken "tok" 0 0 pmSticky = (some 0, pmStickyAfter) ∧
    stickyCachedHealthy pmStickyAfter 0 = true ∧
    getProxyForToken "tok" 500 3 pmStickyAfter = (some 0, pmStickyAfter) :=
  ⟨rfl, by decide, by decide,
   claimC6 pmSticky "tok" 0 500 0 3 0 pmStickyAfter rfl (by decide) (by decide)⟩

end StickyClaims

section RoundRobinClaims

open ProxyManager

/-- A sequence of proxy selections, one per identity in the list, threading
the manager state (each is the `selectProxy` step of `getProxyForToken`). -/
def selectRun : List String → Int → Nat → PMState → List (Option ProxyConfig) × PMState
  | [], _, _, s => ([], s)
  | t :: ts, now, r, s =>
    let first := selectProxy (some t) now r s
    let rest := selectRun ts now r first.2
    (first.1 :: rest.1, rest.2)

/-- With no health records, the health filter keeps every proxy and touches
nothing. -/
theorem healthFilter_nil_map (interval now : Int) :
    ∀ l : List ProxyConfig, healthFilter interval now l [] = (l, []) := by
  intro l
  induction l with
  | nil => rfl
  | cons p rest ih => simp [healthFilter, healthStep, mapGet, ih]

/-- In round-robin mode with no health records, `selectProxy` returns the
proxy under the shared cursor and advances the cursor. -/
theorem selectProxy_rr (t : Option String) (now : Int) (r : Nat) (s : PMState)
    (hmode : s.rotationMode = .roundRobin) (hh : s.proxyHealth = [])
    (hne : s.proxies ≠ []) :
    selectProxy t now r s =
      (s.proxies[s.currentIndex % s.proxies.length]?,
       { s with currentIndex := s.currentIndex + 1 }) := by
  have hgh : getHealthyProxies now s = (s.proxies, s) := by
    unfold getHealthyProxies
    rw [hh, healthFilter_nil_map]
    rw [show ([] : List (String × ProxyHealth)) = s.proxyHealth from hh.symm]
  have hempty : s.proxies.isEmpty = false := by
    cases hp : s.proxies with
    | nil => exact absurd hp hne
    | cons a l => rfl
  unfold selectProxy
  rw [hgh]
  simp only [hempty, Bool.false_eq_true, if_false]
  unfold selectProxyFromList rrPick
  simp only [hempty, hmode, Bool.false_eq_true, if_false]


/-- Characterization of `N` consecutive round-robin selections: the k-th
selection returns the proxy at index `(cursor + k) mod N`, and the cursor
advances once per selection. -/
theorem selectRun_rr : ∀ (tokens : List String) (now : Int) (r : Nat) (s : PMState),
    s.rotationMode = .roundRobin → s.proxyHealth = [] → s.proxies ≠ [] →
    selectRun tokens now r s =
      ((List.range tokens.length).map
         (fun k => s.proxies[(s.currentIndex + k) % s.proxies.length]?),
       { s with currentIndex := s.currentIndex + tokens.length }) := by
  intro tokens
  induction tokens with
  | nil =>
    intro now r s _ _ _
    simp [selectRun]
  | cons t ts ih =>
    intro now r s h1 h2 h3
    have hstep := selectProxy_rr (some t) now r s h1 h2 h3
    have hrec := ih now r { s with currentIndex := s.currentIndex + 1 } h1 h2 h3
    dsimp only at hrec
    simp only [selectRun, hstep]
    rw [hrec]
    refine Prod.ext ?_ ?_
    · dsimp only
      simp only [List.length_cons]
      conv_rhs => rw [List.range_succ_eq_map]
      rw [List.map_cons, List.map_map]
      congr 1
      refine List.map_congr_left ?_
      intro k hk
      simp only [Function.comp_apply]
      have he : s.currentIndex + 1 + k = s.currentIndex + k.succ := by omega
      rw [he]
    · dsimp only
      simp only [PMState.mk.injEq, List.length_cons, and_true, true_and]
      omega

/-- Claim C7: in round-robin mode, `N` consecutive selections for distinct
identities return all `N` pool proxies each exactly once, the shared cursor
advances once per selection (wrapping), and the outputs are independent of
the identities used. -/
theorem claimC7 (tokens : List String) (now : Int) (r : Nat) (s : PMState)
    (hmode : s.rotationMode = .roundRobin) (hh : s.proxyHealth = [])
    (hne : s.proxies ≠ []) (hlen : tokens.length = s.proxies.length)
    (hnd : s.proxies.Nodup) :
    (∀ p ∈ s.proxies, some p ∈ (selectRun tokens now r s).1) ∧
    (selectRun tokens now r s).1.Nodup ∧
    (selectRun tokens now r s).2.currentIndex = s.currentIndex + s.proxies.length ∧
    (∀ tokens' : List String, tokens'.length = tokens.length →
       (selectRun tokens' now r s).1 = (selectRun tokens now r s).1) := by
  have hchar := selectRun_rr tokens now r s hmode hh hne
  have hN : 0 < s.proxies.length := List.length_pos.mpr hne
  refine ⟨?_, ?_, ?_, ?_⟩
  · intro p hp
    rw [hchar]
    obtain ⟨⟨j, hj⟩, hpj⟩ := List.mem_iff_get.mp hp
    refine List.mem_map.mpr ⟨(j + s.proxies.length - s.currentIndex % s.proxies.length) % s.proxies.length, ?_, ?_⟩
    · refine List.mem_range.mpr ?_
      rw [hlen]
      exact Nat.mod_lt _ hN
    · have hcle : s.currentIndex % s.proxies.length ≤ s.proxies.length :=
        Nat.le_of_lt (Nat.mod_lt _ hN)
      have hdlec : s.currentIndex % s.proxies.length ≤ s.currentIndex :=
        Nat.mod_le _ _
      have hidx : (s.currentIndex +
          (j + s.proxies.length - s.currentIndex % s.proxies.length) % s.proxies.length) %
            s.proxies.length = j := by
        rw [Nat.add_mod_mod]
        have h4 : s.currentIndex +
            (j + s.proxies.length - s.currentIndex % s.proxies.length) =
            j + s.proxies.length * (s.currentIndex / s.proxies.length + 1) := by
          have h5 := Nat.div_add_mod s.currentIndex s.proxies.length
          have h6 : j + s.proxies.length *
              (s.currentIndex / s.proxies.length + 1) =
              j + s.proxies.length * (s.currentIndex / s.proxies.length) +
                s.proxies.length := by ring
          omega
        rw [h4, Nat.add_mul_mod_self_left]
        exact Nat.mod_eq_of_lt hj
      rw [hidx]
      rw [List.getElem?_eq_getElem hj]
      rw [← hpj]
      rfl
  · rw [hchar]
    refine List.Nodup.map_on ?_ (List.nodup_range _)
    intro k1 hk1 k2 hk2 hf
    have hk1' : k1 < s.proxies.length := hlen ▸ List.mem_range.mp hk1
    have hk2' : k2 < s.proxies.length := hlen ▸ List.mem_range.mp hk2
    have hm1 : (s.currentIndex + k1) % s.proxies.length < s.proxies.length :=
      Nat.mod_lt _ hN
    have hm2 : (s.currentIndex + k2) % s.proxies.length < s.proxies.length :=
      Nat.mod_lt _ hN
    rw [List.getElem?_eq_getElem hm1, List.getElem?_eq_getElem hm2] at hf
    injection hf with hf
    have hmod : (s.currentIndex + k1) % s.proxies.length =
        (s.currentIndex + k2) % s.proxies.length :=
      (List.Nodup.getElem_inj_iff hnd).mp hf
    have hcong : k1 ≡ k2 [MOD s.proxies.length] :=
      Nat.ModEq.add_left_cancel' s.currentIndex hmod
    have : k1 % s.proxies.length = k2 % s.proxies.length := hcong
    rw [Nat.mod_eq_of_lt hk1', Nat.mod_eq_of_lt hk2'] at this
    exact this
  · rw [hchar, hlen]
  · intro tokens' hlen'
    rw [selectRun_rr tokens' now r s hmode hh hne, hchar, hlen']

/-- A second concrete proxy for multi-proxy scenarios. -/
def proxyB : ProxyConfig := { user := "u", pass := "p", host := "h2.test", port := "80" }

/-- A round-robin manager over a two-proxy pool. -/
def pmRR : PMState :=
  { ProxyManager.mkPM .roundRobin with proxies := [proxyA, proxyB] }

/-- Witness for claim C7: two selections on the two-proxy round-robin pool
advance the cursor by the pool size. -/
theorem claimC7_witness :
    (selectRun ["t1", "t2"] 0 0 pmRR).2.currentIndex =
      pmRR.currentIndex + pmRR.proxies.length :=
  (claimC7 ["t1", "t2"] 0 0 pmRR rfl rfl (by decide) rfl (by decide)).2.2.1

end RoundRobinClaims

section CooldownClaims

open ProxyManager

/-- A run of consecutive `markProxyFailed` calls for one proxy URL with no
intervening success report. -/
def failStreak (url : String) (times : List Int) (s : PMState) : PMState :=
  times.foldl (fun st t => markProxyFailed url t st) s

/-- The health record produced by `n` consecutive failure reports on a
record that started as `h`, the last one at time `tl`. -/
def streakRecord (s : PMState) (h : ProxyHealth) (n : Nat) (tl : Int) : ProxyHealth :=
  { agent := h.agent, failures := h.failures + n,
    lastFailure := some tl, lastSuccess := h.lastSuccess,
    isHealthy := if s.maxFailures ≤ h.failures + n then false else h.isHealthy }

/-- Explicit form of one `markProxyFailed` call on an existing record. -/
theorem markProxyFailed_get (url : String) (now : Int) (s : PMState) (h : ProxyHealth)
    (hget : mapGet s.proxyHealth url = some h) :
    markProxyFailed url now s =
      { s with proxyHealth := mapSet s.proxyHealth url (streakRecord s h 1 now) } := by
  unfold markProxyFailed streakRecord
  rw [hget]
  by_cases hc : s.maxFailures ≤ h.failures + 1
  · simp [hc]
  · simp [hc]

/-- `markProxyFailed` only rewrites the health map. -/
theorem markProxyFailed_shape (url : String) (now : Int) (s : PMState) :
    ∃ hp, markProxyFailed url now s = { s with proxyHealth := hp } := by
  unfold markProxyFailed
  split
  · exact ⟨s.proxyHealth, rfl⟩
  · exact ⟨_, rfl⟩

/-- `failStreak` only rewrites the health map. -/
theorem failStreak_shape (url : String) :
    ∀ (times : List Int) (s : PMState),
      ∃ hp, failStreak url times s = { s with proxyHealth := hp } := by
  intro times
  induction times with
  | nil => intro s; exact ⟨s.proxyHealth, rfl⟩
  | cons t ts ih =>
    intro s
    obtain ⟨hp1, h1⟩ := markProxyFailed_shape url t s
    obtain ⟨hp2, h2⟩ := ih (markProxyFailed url t s)
    refine ⟨hp2, ?_⟩
    show failStreak url ts (markProxyFailed url t s) = _
    rw [h2, h1]

/-- The health record after a non-empty failure streak. -/
theorem failStreak_get (url : String) :
    ∀ (ts : List Int) (t : Int) (s : PMState) (h : ProxyHealth),
      mapGet s.proxyHealth url = some h →
      mapGet ((failStreak url (t :: ts) s).proxyHealth) url =
        some (streakRecord s h (ts.length + 1) ((t :: ts).getLast (List.cons_ne_nil t ts))) := by
  intro ts
  induction ts with
  | nil =>
    intro t s h hget
    show mapGet (markProxyFailed url t s).proxyHealth url = _
    rw [markProxyFailed_get url t s h hget]
    dsimp only
    rw [mapGet_mapSet, if_pos rfl]
    rfl
  | cons t2 ts' ih =>
    intro t s h hget
    have hs' := markProxyFailed_get url t s h hget
    have hget' : mapGet (markProxyFailed url t s).proxyHealth url =
        some (streakRecord s h 1 t) := by
      rw [hs']
      dsimp only
      rw [mapGet_mapSet, if_pos rfl]
    show mapGet (failStreak url (t2 :: ts') (markProxyFailed url t s)).proxyHealth url = _
    rw [ih t2 (markProxyFailed url t s) _ hget']
    rw [List.getLast_cons (List.cons_ne_nil t2 ts')]
    have hmax' : (markProxyFailed url t s).maxFailures = s.maxFailures := by
      rw [hs']
    congr 1
    unfold streakRecord
    rw [hmax']
    dsimp only
    simp only [List.length_cons]
    have harith : h.failures + 1 + (ts'.length + 1) = h.failures + (ts'.length + 1 + 1) := by
      omega
    rw [harith]
    by_cases hc : s.maxFailures ≤ h.failures + (ts'.length + 1 + 1)
    · rw [if_pos hc, if_pos hc]
    · have hc2 : ¬ s.maxFailures ≤ h.failures + 1 := by omega
      rw [if_neg hc, if_neg hc, if_neg hc2]

/-- Let-free equation form of `healthStep`. -/
theorem healthStep_eq (interval now : Int) (m : List (String × ProxyHealth))
    (p : ProxyConfig) :
    healthStep interval now m p =
      match mapGet m (getProxyUrl p) with
      | none => (true, m)
      | some h =>
        if h.isHealthy then (true, m)
        else
          match h.lastFailure with
          | some lf =>
            if now - lf < interval * 1000 then (false, m)
            else (true, mapSet m (getProxyUrl p) ({ h with isHealthy := true, failures := 0 }))
          | none => (true, mapSet m (getProxyUrl p) ({ h with isHealthy := true, failures := 0 })) :=
  rfl

/-- A health-filter step for a different proxy URL does not change the
record stored at `url`. -/
theorem healthStep_get_other (interval now : Int) (m : List (String × ProxyHealth))
    (q : ProxyConfig) (url : String) (hq : getProxyUrl q ≠ url) :
    mapGet (healthStep interval now m q).2 url = mapGet m url := by
  rw [healthStep_eq]
  split
  · rfl
  · split
    · rfl
    · split
      · split
        · rfl
        · dsimp only
          rw [mapGet_mapSet, if_neg (fun hh : url = getProxyUrl q => hq hh.symm)]
      · dsimp only
        rw [mapGet_mapSet, if_neg (fun hh : url = getProxyUrl q => hq hh.symm)]

/-- While the cooldown of an unhealthy record is still running, the filter
drops every pool entry with that URL and leaves the record untouched. -/
theorem healthFilter_excluded (interval now tl : Int) (url : String)
    (hcd : now - tl < interval * 1000) :
    ∀ (l : List ProxyConfig) (m : List (String × ProxyHealth)),
      (∃ hh, mapGet m url = some hh ∧ hh.isHealthy = false ∧ hh.lastFailure = some tl) →
      (∀ p, getProxyUrl p = url → p ∉ (healthFilter interval now l m).1) ∧
      (∃ hh, mapGet (healthFilter interval now l m).2 url = some hh ∧
         hh.isHealthy = false ∧ hh.lastFailure = some tl) := by
  intro l
  induction l with
  | nil =>
    intro m hinv
    exact ⟨fun p _ hmem => (List.not_mem_nil p) hmem, hinv⟩
  | cons q l' ih =>
    intro m hinv
    obtain ⟨hh, hget, hunh, hlast⟩ := hinv
    by_cases hq : getProxyUrl q = url
    · have hstep : healthStep interval now m q = (false, m) := by
        rw [healthStep_eq, hq, hget]
        simp [hunh, hlast, hcd]
      show (∀ p, getProxyUrl p = url →
          p ∉ (healthFilter interval now (q :: l') m).1) ∧ _
      have hred : healthFilter interval now (q :: l') m =
          ((healthFilter interval now l' m).1, (healthFilter interval now l' m).2) := by
        show (let (keep, m') := healthStep interval now m q
              let (tail, m'') := healthFilter interval now l' m'
              ((if keep then q :: tail else tail), m'')) = _
        rw [hstep]
        simp
      obtain ⟨ihmem, ihinv⟩ := ih m ⟨hh, hget, hunh, hlast⟩
      rw [hred]
      exact ⟨fun p hp => ihmem p hp, ihinv⟩
    · have hother : mapGet (healthStep interval now m q).2 url = mapGet m url :=
        healthStep_get_other interval now m q url hq
      have hred : healthFilter interval now (q :: l') m =
          ((if (healthStep interval now m q).1
            then q :: (healthFilter interval now l' (healthStep interval now m q).2).1
            else (healthFilter interval now l' (healthStep interval now m q).2).1),
           (healthFilter interval now l' (healthStep interval now m q).2).2) := by
        show (let (keep, m') := healthStep interval now m q
              let (tail, m'') := healthFilter interval now l' m'
              ((if keep then q :: tail else tail), m'')) = _
        rfl
      obtain ⟨ihmem, ihinv⟩ := ih (healthStep interval now m q).2
        ⟨hh, hother ▸ hget, hunh, hlast⟩
      rw [hred]
      constructor
      · intro p hp hmem
        have hpq : p ≠ q := fun hpq => hq (hpq ▸ hp)
        have : p ∈ (healthFilter interval now l' (healthStep interval now m q).2).1 := by
          by_cases hk : (healthStep interval now m q).1
          · rw [if_pos hk] at hmem
            cases hmem with
            | head => exact absurd rfl hpq
            | tail _ hmem' => exact hmem'
          · rw [if_neg hk] at hmem
            exact hmem
        exact ihmem p hp this
      · exact ihinv

/-- Once a record at `url` is healthy with a zero failure count, the filter
keeps it that way and keeps every pool entry with that URL. -/
theorem healthFilter_done (interval now : Int) (url : String) :
    ∀ (l : List ProxyConfig) (m : List (String × ProxyHealth)),
      (∃ hh, mapGet m url = some hh ∧ hh.isHealthy = true ∧ hh.failures = 0) →
      (∃ hh, mapGet (healthFilter interval now l m).2 url = some hh ∧
         hh.isHealthy = true ∧ hh.failures = 0) ∧
      (∀ p ∈ l, getProxyUrl p = url → p ∈ (healthFilter interval now l m).1) := by
  intro l
  induction l with
  | nil => intro m hinv; exact ⟨hinv, fun p hp => absurd hp (List.not_mem_nil p)⟩
  | cons q l' ih =>
    intro m hinv
    obtain ⟨hh, hget, hok, hzero⟩ := hinv
    by_cases hq : getProxyUrl q = url
    · have hstep : healthStep interval now m q = (true, m) := by
        rw [healthStep_eq, hq, hget]
        simp [hok]
      have hred : healthFilter interval now (q :: l') m =
          (q :: (healthFilter interval now l' m).1, (healthFilter interval now l' m).2) := by
        show (let (keep, m') := healthStep interval now m q
              let (tail, m'') := healthFilter interval now l' m'
              ((if keep then q :: tail else tail), m'')) = _
        rw [hstep]
        simp
      obtain ⟨ihinv, ihmem⟩ := ih m ⟨hh, hget, hok, hzero⟩
      rw [hred]
      refine ⟨ihinv, fun p hp hpu => ?_⟩
      cases hp with
      | head => exact List.mem_cons_self q _
      | tail _ hp' => exact List.mem_cons_of_mem q (ihmem p hp' hpu)
    · have hother : mapGet (healthStep interval now m q).2 url = mapGet m url :=
        healthStep_get_other interval now m q url hq
      have hred : healthFilter interval now (q :: l') m =
          ((if (healthStep interval now m q).1
            then q :: (healthFilter interval now l' (healthStep interval now m q).2).1
            else (healthFilter interval now l' (healthStep interval now m q).2).1),
           (healthFilter interval now l' (healthStep interval now m q).2).2) := by
        show (let (keep, m') := healthStep interval now m q
              let (tail, m'') := healthFilter interval now l' m'
              ((if keep then q :: tail else tail), m'')) = _
        rfl
      obtain ⟨ihinv, ihmem⟩ := ih (healthStep interval now m q).2
        ⟨hh, hother ▸ hget, hok, hzero⟩
      rw [hred]
      refine ⟨ihinv, fun p hp hpu => ?_⟩
      have hpq : p ≠ q := fun hpq => hq (hpq ▸ hpu)
      have hp' : p ∈ l' := by
        cases hp with
        | head => exact absurd rfl hpq
        | tail _ hp' => exact hp'
      have hptail := ihmem p hp' hpu
      by_cases hk : (healthStep interval now m q).1
      · rw [if_pos hk]; exact List.mem_cons_of_mem q hptail
      · rw [if_neg hk]; exact hptail

/-- Once the cooldown of an unhealthy record has passed, the filter keeps
every pool entry with that URL and resets its record to healthy with a zero
failure count. -/
theorem healthFilter_reset (interval now tl : Int) (url : String)
    (hcd : ¬ now - tl < interval * 1000) :
    ∀ (l : List ProxyConfig) (m : List (String × ProxyHealth)),
      (∃ hh, mapGet m url = some hh ∧ hh.isHealthy = false ∧ hh.lastFailure = some tl) →
      (∀ p ∈ l, getProxyUrl p = url → p ∈ (healthFilter interval now l m).1) ∧
      ((∃ p ∈ l, getProxyUrl p = url) →
        ∃ hh, mapGet (healthFilter interval now l m).2 url = some hh ∧
          hh.isHealthy = true ∧ hh.failures = 0) := by
  intro l
  induction l with
  | nil =>
    intro m _
    refine ⟨fun p hp => absurd hp (List.not_mem_nil p), fun ⟨p, hp, _⟩ => absurd hp (List.not_mem_nil p)⟩
  | cons q l' ih =>
    intro m hinv
    obtain ⟨hh, hget, hunh, hlast⟩ := hinv
    by_cases hq : getProxyUrl q = url
    · have hstep : healthStep interval now m q =
          (true, mapSet m url ({ hh with isHealthy := true, failures := 0 })) := by
        rw [healthStep_eq, hq, hget]
        simp [hunh, hlast, hcd]
      have hred : healthFilter interval now (q :: l') m =
          (q :: (healthFilter interval now l'
                  (mapSet m url ({ hh with isHealthy := true, failures := 0 }))).1,
           (healthFilter interval now l'
                  (mapSet m url ({ hh with isHealthy := true, failures := 0 }))).2) := by
        show (let (keep, m') := healthStep interval now m q
              let (tail, m'') := healthFilter interval now l' m'
              ((if keep then q :: tail else tail), m'')) = _
        rw [hstep]
        simp
      have hdone : ∃ hh2, mapGet (mapSet m url ({ hh with isHealthy := true, failures := 0 })) url =
          some hh2 ∧ hh2.isHealthy = true ∧ hh2.failures = 0 := by
        rw [mapGet_mapSet, if_pos rfl]
        exact ⟨_, rfl, rfl, rfl⟩
      obtain ⟨ihinv, ihmem⟩ := healthFilter_done interval now url l'
        (mapSet m url ({ hh with isHealthy := true, failures := 0 })) hdone
      rw [hred]
      constructor
      · intro p hp hpu
        cases hp with
        | head => exact List.mem_cons_self q _
        | tail _ hp' => exact List.mem_cons_of_mem q (ihmem p hp' hpu)
      · intro _
        exact ihinv
    · have hother : mapGet (healthStep interval now m q).2 url = mapGet m url :=
        healthStep_get_other interval now m q url hq
      have hred : healthFilter interval now (q :: l') m =
          ((if (healthStep interval now m q).1
            then q :: (healthFilter interval now l' (healthStep interval now m q).2).1
            else (healthFilter interval now l' (healthStep interval now m q).2).1),
           (healthFilter interval now l' (healthStep interval now m q).2).2) := by
        show (let (keep, m') := healthStep interval now m q
              let (tail, m'') := healthFilter interval now l' m'
              ((if keep then q :: tail else tail), m'')) = _
        rfl
      obtain ⟨ihmem, ihinv⟩ := ih (healthStep interval now m q).2
        ⟨hh, hother ▸ hget, hunh, hlast⟩
      rw [hred]
      constructor
      · intro p hp hpu
        have hpq : p ≠ q := fun hpq => hq (hpq ▸ hpu)
        have hp' : p ∈ l' := by
          cases hp with
          | head => exact absurd rfl hpq
          | tail _ hp' => exact hp'
        have hptail := ihmem p hp' hpu
        by_cases hk : (healthStep interval now m q).1
        · rw [if_pos hk]; exact List.mem_cons_of_mem q hptail
        · rw [if_neg hk]; exact hptail
      · rintro ⟨p, hp, hpu⟩
        have hpq : p ≠ q := fun hpq => hq (hpq ▸ hpu)
        have hp' : p ∈ l' := by
          cases hp with
          | head => exact absurd rfl hpq
          | tail _ hp' => exact hp'
        exact ihinv ⟨p, hp', hpu⟩

/-- Whatever `selectProxyFromList` returns is a member of the candidate
list. -/
theorem selectProxyFromList_mem (list : List ProxyConfig) (token : Option String)
    (r : Nat) (s : PMState) (q : ProxyConfig)
    (h : (selectProxyFromList list token r s).1 = some q) : q ∈ list := by
  have hrr : ∀ st : PMState, (rrPick list st).1 = some q → q ∈ list := by
    intro st hh
    unfold rrPick at hh
    dsimp only at hh
    obtain ⟨hlt, he⟩ := List.getElem?_eq_some.mp hh
    exact he ▸ List.getElem_mem hlt
  unfold selectProxyFromList at h
  split at h
  · cases h
  · split at h
    · split at h
      · split at h
        · split at h
          · rename_i p hfind
            injection h with h
            exact h ▸ List.mem_of_find?_eq_some hfind
          · exact hrr _ h
        · exact hrr _ h
      · exact hrr _ h
    · exact hrr _ h
    · obtain ⟨hlt, he⟩ := List.getElem?_eq_some.mp h
      exact he ▸ List.getElem_mem hlt

/-- Equation form of `getHealthyProxies`. -/
theorem getHealthyProxies_eq (now : Int) (st : PMState) :
    getHealthyProxies now st =
      ((healthFilter st.healthCheckInterval now st.proxies st.proxyHealth).1,
       { st with proxyHealth :=
           (healthFilter st.healthCheckInterval now st.proxies st.proxyHealth).2 }) := rfl

/-- When the healthy set is non-empty, `selectProxy` draws from it. -/
theorem selectProxy_of_healthy_nonempty (tok : Option String) (now : Int) (r : Nat)
    (st : PMState) (hne : ((getHealthyProxies now st).1).isEmpty = false) :
    selectProxy tok now r st =
      selectProxyFromList (getHealthyProxies now st).1 tok r (getHealthyProxies now st).2 := by
  show (if ((getHealthyProxies now st).1).isEmpty then
          if ((getHealthyProxies now st).2).proxies.isEmpty then
            (none, (getHealthyProxies now st).2)
          else selectProxyFromList ((getHealthyProxies now st).2).proxies tok r
            (getHealthyProxies now st).2
        else selectProxyFromList (getHealthyProxies now st).1 tok r
          (getHealthyProxies now st).2) = _
  rw [hne]
  simp

/-- Claim C1 (amended): after `maxFailures` consecutive failure reports with
no intervening success, the proxy's record is unhealthy with a failure count
at least `maxFailures`; while the cooldown has not elapsed since the last
failure it is excluded from the eligible (healthy) set — and hence from
selection whenever the eligible set is non-empty — and as soon as the
cooldown has elapsed it is eligible again with its failure count reset to 0
and `healthy` reset to true. -/
theorem claimC1 (s : PMState) (p : ProxyConfig) (h : ProxyHealth) (t : Int)
    (ts : List Int)
    (hlen : ts.length + 1 = s.maxFailures)
    (hget : mapGet s.proxyHealth (getProxyUrl p) = some h) :
    (∃ h', mapGet ((failStreak (getProxyUrl p) (t :: ts) s).proxyHealth) (getProxyUrl p) =
        some h' ∧ h'.isHealthy = false ∧ s.maxFailures ≤ h'.failures ∧
        h'.lastFailure = some ((t :: ts).getLast (List.cons_ne_nil t ts))) ∧
    (∀ now : Int,
      now - (t :: ts).getLast (List.cons_ne_nil t ts) < s.healthCheckInterval * 1000 →
      p ∉ (getHealthyProxies now (failStreak (getProxyUrl p) (t :: ts) s)).1) ∧
    (∀ now : Int,
      now - (t :: ts).getLast (List.cons_ne_nil t ts) < s.healthCheckInterval * 1000 →
      ∀ (tok : Option String) (r : Nat),
        (getHealthyProxies now (failStreak (getProxyUrl p) (t :: ts) s)).1 ≠ [] →
        (selectProxy tok now r (failStreak (getProxyUrl p) (t :: ts) s)).1 ≠ some p) ∧
    (∀ now : Int,
      ¬ now - (t :: ts).getLast (List.cons_ne_nil t ts) < s.healthCheckInterval * 1000 →
      p ∈ s.proxies →
      p ∈ (getHealthyProxies now (failStreak (getProxyUrl p) (t :: ts) s)).1 ∧
      ∃ h'', mapGet ((getHealthyProxies now (failStreak (getProxyUrl p) (t :: ts) s)).2).proxyHealth
          (getProxyUrl p) = some h'' ∧ h''.isHealthy = true ∧ h''.failures = 0) := by
  obtain ⟨hp0, hshape⟩ := failStreak_shape (getProxyUrl p) (t :: ts) s
  have hrec := failStreak_get (getProxyUrl p) ts t s h hget
  rw [hshape] at hrec
  dsimp only at hrec
  rw [hshape]
  have hunh : (streakRecord s h (ts.length + 1)
      ((t :: ts).getLast (List.cons_ne_nil t ts))).isHealthy = false := by
    unfold streakRecord
    dsimp only
    rw [if_pos (by omega)]
  have hfail : s.maxFailures ≤ (streakRecord s h (ts.length + 1)
      ((t :: ts).getLast (List.cons_ne_nil t ts))).failures := by
    unfold streakRecord
    dsimp only
    omega
  have hlastf : (streakRecord s h (ts.length + 1)
      ((t :: ts).getLast (List.cons_ne_nil t ts))).lastFailure =
      some ((t :: ts).getLast (List.cons_ne_nil t ts)) := rfl
  have hinv : ∃ hh, mapGet hp0 (getProxyUrl p) = some hh ∧ hh.isHealthy = false ∧
      hh.lastFailure = some ((t :: ts).getLast (List.cons_ne_nil t ts)) :=
    ⟨_, hrec, hunh, hlastf⟩
  refine ⟨⟨_, hrec, hunh, hfail, hlastf⟩, ?_, ?_, ?_⟩
  · intro now hcd
    obtain ⟨hmem, _⟩ := healthFilter_excluded s.healthCheckInterval now
      ((t :: ts).getLast (List.cons_ne_nil t ts)) (getProxyUrl p) hcd s.proxies hp0 hinv
    rw [getHealthyProxies_eq]
    dsimp only
    exact hmem p rfl
  · intro now hcd tok r hne hcontra
    obtain ⟨hmem, _⟩ := healthFilter_excluded s.healthCheckInterval now
      ((t :: ts).getLast (List.cons_ne_nil t ts)) (getProxyUrl p) hcd s.proxies hp0 hinv
    have hEmp : ((getHealthyProxies now
        { s with proxyHealth := hp0 }).1).isEmpty = false := by
      cases hl : (getHealthyProxies now { s with proxyHealth := hp0 }).1 with
      | nil => exact absurd hl hne
      | cons a l => rfl
    rw [selectProxy_of_healthy_nonempty tok now r _ hEmp] at hcontra
    have hmemq := selectProxyFromList_mem _ tok r _ p hcontra
    rw [getHealthyProxies_eq] at hmemq
    dsimp only at hmemq
    exact hmem p rfl hmemq
  · intro now hcd hpmem
    obtain ⟨hcov, hreset⟩ := healthFilter_reset s.healthCheckInterval now
      ((t :: ts).getLast (List.cons_ne_nil t ts)) (getProxyUrl p) hcd s.proxies hp0 hinv
    constructor
    · rw [getHealthyProxies_eq]
      dsimp only
      exact hcov p hpmem rfl
    · rw [getHealthyProxies_eq]
      dsimp only
      exact hreset ⟨p, hpmem, rfl⟩

/-- The one-proxy sticky pool after three failure reports at time 0. -/
def pmC1Failed : PMState :=
  failStreak (ProxyManager.getProxyUrl proxyA) [0, 0, 0] pmStickyAfter

/-- Claim C1 (counterexample): with a single-proxy pool, after 3 consecutive
failures the record is unhealthy and the cooldown (300 s) has not elapsed at
time 1000 ms, yet `getProxyForToken` still returns an agent for that very
proxy — the all-proxies fallback in `selectProxy` defeats the claimed
exclusion from selection (and even resurrects the record). -/
theorem claimC1_counterexample :
    (mapGet pmC1Failed.proxyHealth (getProxyUrl proxyA)).map (fun hh => hh.isHealthy) =
      some false ∧
    ((1000 : Int) - 0 < pmC1Failed.healthCheckInterval * 1000) ∧
    (getProxyForToken "t" 1000 0 pmC1Failed).1 = some 1 ∧
    getProxyUrlForAgent 1 (getProxyForToken "t" 1000 0 pmC1Failed).2 =
      some (getProxyUrl proxyA) := by
  refine ⟨by decide, by decide, by decide, by decide⟩

/-- Witness for claim C1's cooldown exclusion on the concrete pool. -/
theorem claimC1_witness :
    proxyA ∉ (getHealthyProxies 1000
      (failStreak (getProxyUrl proxyA) ((0 : Int) :: [0, 0]) pmStickyAfter)).1 :=
  (claimC1 pmStickyAfter proxyA
      { agent := 0, failures := 0, lastFailure := none, lastSuccess := some 0,
        isHealthy := true }
      0 [0, 0] (by decide) (by decide)).2.1 1000 (by decide)

end CooldownClaims

section RetryClaims

open TwitterClient

/-- Every attempt that actually runs (non-empty token, positive fuel)
records at least one transport attempt. -/
theorem makeRequestAux_attempts_ne_nil (env : MEnv) (authToken : String) (mr : Nat)
    (htok : ¬ authToken = "") (fuel rc : Nat) (s : ClientState) :
    (makeRequestAux env authToken mr (fuel + 1) rc s).attempts ≠ [] := by
  simp only [makeRequestAux]
  rw [if_neg htok]
  repeat' split
  all_goals simp

/-- Claim C2 (amended): when the first transport attempt fails, the call is
retried exactly when the failure kind is retryable, the retry budget is
positive, a proxy was in use for the failed attempt, AND the freshly drawn
random healthy agent exists and differs from the one just used; in every
other case a kind-tagged failure from the classification chain is raised
after that single attempt. -/
theorem claimC2 (env : MEnv) (authToken : String) (mr : Nat) (s : ClientState)
    (e : TransportError)
    (htok : ¬ authToken = "")
    (htr : env.transport 0 = .error e) :
    (2 ≤ (makeRequest env authToken 0 mr s).attempts.length ↔
      (isRetryableError e = true ∧ 0 < mr ∧
       (attemptAgent env authToken 0 s).isSome = true ∧
       ∃ na, (replacementDraw env authToken 0 s).1 = some na ∧
         some na ≠ attemptAgent env authToken 0 s)) ∧
    (¬ (isRetryableError e = true ∧ 0 < mr ∧
        (attemptAgent env authToken 0 s).isSome = true ∧
        ∃ na, (replacementDraw env authToken 0 s).1 = some na ∧
          some na ≠ attemptAgent env authToken 0 s) →
      (makeRequest env authToken 0 mr s).result = .error (classifyError e) ∧
      (makeRequest env authToken 0 mr s).attempts = [attemptAgent env authToken 0 s]) := by
  have hunfold : makeRequest env authToken 0 mr s =
      makeRequestAux env authToken mr (mr + 1) 0 s := rfl
  rw [hunfold]
  simp only [makeRequestAux]
  rw [if_neg htok, htr]
  dsimp only
  constructor
  · by_cases hc : (isRetryableError e && decide (0 < mr) &&
        (attemptAgent env authToken 0 s).isSome) = true
    · rw [if_pos hc]
      obtain ⟨⟨hre, hmr⟩, hsome⟩ : (isRetryableError e = true ∧ 0 < mr) ∧
          (attemptAgent env authToken 0 s).isSome = true := by
        simp only [Bool.and_eq_true, decide_eq_true_eq] at hc
        exact ⟨⟨hc.1.1, hc.1.2⟩, hc.2⟩
      cases hrd : (replacementDraw env authToken 0 s).1 with
      | none =>
        dsimp only
        simp [hrd]
      | some na =>
        dsimp only
        by_cases hne : some na = attemptAgent env authToken 0 s
        · rw [if_neg (not_not_intro hne)]
          dsimp only
          constructor
          · intro h2; simp at h2
          · rintro ⟨_, _, _, na', hna', hne'⟩
            injection hna' with hnaeq
            subst hnaeq
            exact absurd hne hne'
        · rw [if_pos hne]
          dsimp only
          constructor
          · intro _
            exact ⟨hre, hmr, hsome, na, rfl, hne⟩
          · intro _
            obtain ⟨mr', rfl⟩ : ∃ mr', mr = mr' + 1 := ⟨mr - 1, by omega⟩
            have hnn := makeRequestAux_attempts_ne_nil env authToken (mr' + 1) htok mr'
              (0 + 1) (updateCachedAgent authToken na
                { pm := (replacementDraw env authToken 0 s).2,
                  tokenCache := (attemptFailedState env authToken 0 s).tokenCache })
            have hpos := List.length_pos.mpr hnn
            simp only [List.length_cons]
            omega
    · rw [if_neg hc]
      dsimp only
      constructor
      · intro h2; simp at h2
      · rintro ⟨hre, hmr, hsome, _⟩
        exact absurd (by simp [hre, hmr, hsome]) hc
  · intro hnc
    by_cases hc : (isRetryableError e && decide (0 < mr) &&
        (attemptAgent env authToken 0 s).isSome) = true
    · rw [if_pos hc]
      obtain ⟨⟨hre, hmr⟩, hsome⟩ : (isRetryableError e = true ∧ 0 < mr) ∧
          (attemptAgent env authToken 0 s).isSome = true := by
        simp only [Bool.and_eq_true, decide_eq_true_eq] at hc
        exact ⟨⟨hc.1.1, hc.1.2⟩, hc.2⟩
      cases hrd : (replacementDraw env authToken 0 s).1 with
      | none => exact ⟨rfl, rfl⟩
      | some na =>
        by_cases hne : some na = attemptAgent env authToken 0 s
        · dsimp only
          rw [if_neg (not_not_intro hne)]
          exact ⟨rfl, rfl⟩
        · exact absurd ⟨hre, hmr, hsome, na, hrd, hne⟩ hnc
    · rw [if_neg hc]
      exact ⟨rfl, rfl⟩

/-- The retryable transport error used in the retry scenarios. -/
def errRefused : TransportError :=
  { message := "fetch failed", code := some "ECONNREFUSED" }

/-- Environment whose transport always rejects with a retryable error. -/
def envOneProxyFail : MEnv :=
  { derive := envAllFail, transport := fun _ => .error errRefused,
    attemptTime := fun k => 1000 * k, rand := fun _ => 0 }

/-- A client over a single-proxy pool. -/
def clientOneProxy : ClientState :=
  { pm := { ProxyManager.mkPM with proxies := [proxyA] }, tokenCache := [] }

/-- A client over a two-proxy pool. -/
def clientTwoProxies : ClientState :=
  { pm := { ProxyManager.mkPM with proxies := [proxyA, proxyB] }, tokenCache := [] }

/-- Environment that fails the first attempt, succeeds afterwards, and
draws the second proxy as the replacement. -/
def envTwoProxyRetry : MEnv :=
  { derive := envAllFail,
    transport := fun k =>
      if k = 0 then .error errRefused
      else .ok { ok := true, status := 200, statusText := "OK", data := .raw "x" },
    attemptTime := fun k => 1000 * k,
    rand := fun i => if i = 2 then 1 else 0 }

/-- Claim C2 (counterexample): over a single-proxy pool, a retryable failure
with a proxy in use and budget left is NOT retried (the random draw returns
the same agent, so the guard `newAgent !== agent` fails) and the call
raises after one attempt; and over a two-proxy pool a retry does happen but
both attempts use agent 0 — the original proxy — even though the freshly
drawn "new" agent was agent 1, so the retry does not use the newly selected
random healthy proxy either. -/
theorem claimC2_counterexample :
    (isRetryableError errRefused = true ∧ (0 : Nat) < 2 ∧
     (makeRequest envOneProxyFail "t" 0 2 clientOneProxy).attempts = [some 0] ∧
     (makeRequest envOneProxyFail "t" 0 2 clientOneProxy).succeeded = false) ∧
    ((makeRequest envTwoProxyRetry "t" 0 2 clientTwoProxies).attempts = [some 0, some 0] ∧
     (replacementDraw envTwoProxyRetry "t" 0 clientTwoProxies).1 = some 1) := by
  refine ⟨⟨by decide, by decide, by decide, by decide⟩, by decide, by decide⟩

/-- Witness for claim C2: on the two-proxy scenario the retry condition
holds and the call indeed performs a second attempt. -/
theorem claimC2_witness :
    2 ≤ (makeRequest envTwoProxyRetry "t" 0 2 clientTwoProxies).attempts.length :=
  (claimC2 envTwoProxyRetry "t" 2 clientTwoProxies errRefused (by decide) rfl).1.mpr
    ⟨by decide, by decide, by decide, 1, by decide, by decide⟩

end RetryClaims
